import Mathlib

/-!
Shallow embedding of the Nexus AI backend core: the authentication gates
(`verifyAuth` and `optionalAuth` in `src/server.js`), the admin gate
(`requireAdmin` in `src/middleware/admin.js`), the ownership-scoped project
routes (`src/routes/projects.js`, identical handler logic in `src/server.js`),
and the chat context assembly (`app.post('/api/chat')` in `src/server.js`).

The backing store is the supabase client; its query-builder calls are embedded
as pure functions over a list of rows. In particular `.single()` follows the
client's documented semantics: it yields the row when exactly one row matches
the filters and an error otherwise (zero or several rows), with `data` null in
the error case. Query errors are returned in the result object, not thrown.
-/

/-- A verified identity returned by `supabase.auth.getUser(token)`. -/
structure User where
  id : Nat
deriving DecidableEq

/-- A stored profile row; `is_admin` is a nullable boolean column. -/
structure Profile where
  id : Nat
  is_admin : Option Bool
deriving DecidableEq

/-- The `{ data: { user }, error }` pair of `supabase.auth.getUser(token)` as
the middleware destructures it: a possibly-missing user and an error flag. -/
structure VerifyResult where
  user : Option User
  error : Bool
deriving DecidableEq

/-- Result of the profile lookup `.from('profiles').select('*').eq('id',
user.id).single()`: with `.single()`, either exactly one row matched (`ok`)
or the call reports an error with null data (`fail`). -/
inductive ProfileLookup
  | ok (p : Profile)
  | fail
deriving DecidableEq

/-- The request context attached by the auth middlewares
(`req.user`, `req.profile`, `req.isAdmin`). -/
structure RequestContext where
  user : Option User
  profile : Option Profile
  isAdmin : Bool
deriving DecidableEq

/-- Outcome of a middleware: call `next()` with a context attached, or answer
with an error status and message. -/
inductive AuthOutcome
  | proceed (ctx : RequestContext)
  | reject (status : Nat) (msg : String)
deriving DecidableEq

/-- The anonymous context `{user: null, profile: null, isAdmin: false}`. -/
def anonCtx : RequestContext := { user := none, profile := none, isAdmin := false }

/-- `authHeader.startsWith('Bearer ')`, on the underlying character list. -/
def startsWithBearer (s : String) : Bool := s.data.take 7 == "Bearer ".data

/-- JavaScript `str.split(' ')` on the character list: split on every single
space, keeping empty groups. -/
def splitOnSpace : List Char → List (List Char)
  | [] => [[]]
  | c :: rest =>
    if c = ' ' then [] :: splitOnSpace rest
    else
      match splitOnSpace rest with
      | [] => [[c]]
      | g :: gs => (c :: g) :: gs

/-- `authHeader.split(' ')[1]`; the scheme guard guarantees index 1 exists,
a missing index is modelled as the empty token. -/
def bearerToken (s : String) : String :=
  match splitOnSpace s.data with
  | _ :: t :: _ => String.mk t
  | _ => ""

/-- `profile?.is_admin || false`. -/
def isAdminOf (p : Option Profile) : Bool :=
  match p with
  | some pr => pr.is_admin.getD false
  | none => false

/-- Mandatory auth gate, from `verifyAuth` in `src/server.js`: missing header
or non-bearer scheme rejects 401; a verification error or missing user rejects
401; a profile lookup error rejects 500; otherwise the request proceeds with
`{user, profile, isAdmin: profile.is_admin || false}`. -/
def verifyAuth (g : String → VerifyResult) (gp : Nat → ProfileLookup)
    (header : Option String) : AuthOutcome :=
  match header with
  | none => .reject 401 "No authorization token provided"
  | some h =>
    if startsWithBearer h then
      let vr := g (bearerToken h)
      match vr.user, vr.error with
      | some u, false =>
        match gp u.id with
        | .fail => .reject 500 "Error fetching user profile"
        | .ok p =>
          .proceed { user := some u, profile := some p, isAdmin := p.is_admin.getD false }
      | _, _ => .reject 401 "Invalid or expired token"
    else .reject 401 "No authorization token provided"

/-- Optional auth gate, from `optionalAuth` in `src/server.js`: every branch
calls `next()`. On a profile lookup error the handler destructures only
`data` (`const { data: profile } = ...`), so the verified user is retained
with a null profile and `isAdmin = profile?.is_admin || false`. -/
def optionalAuth (g : String → VerifyResult) (gp : Nat → ProfileLookup)
    (header : Option String) : AuthOutcome :=
  match header with
  | none => .proceed anonCtx
  | some h =>
    if startsWithBearer h then
      let vr := g (bearerToken h)
      match vr.user, vr.error with
      | some u, false =>
        let profile : Option Profile :=
          match gp u.id with
          | .ok p => some p
          | .fail => none
        .proceed { user := some u, profile := profile, isAdmin := isAdminOf profile }
      | _, _ => .proceed anonCtx
    else .proceed anonCtx

/-- Admin gate, from `requireAdmin` in `src/middleware/admin.js`. -/
def requireAdmin (ctx : RequestContext) : AuthOutcome :=
  match ctx.user with
  | none => .reject 401 "Authentication required"
  | some _ =>
    if ctx.isAdmin then .proceed ctx
    else .reject 403 "Admin access required. This action is restricted to administrators."

/-- A stored project row. Columns the insert never supplies (`progress`,
`status`) take the table defaults, modelled as 0 and null. -/
structure Project where
  id : Nat
  user_id : Nat
  created_at : Nat
  name : String
  description : Option String
  logo_url : Option String
  team_size : Int
  due_date : Option String
  status : Option String
  progress : Int
  tags : List String
  priority : String
deriving DecidableEq

/-- Supabase `.single()` on a filtered row set: the row and no error when
exactly one row matches; null data and an error otherwise. -/
def singleOf (rows : List Project) : Option Project × Bool :=
  match rows with
  | [r] => (some r, false)
  | _ => (none, true)

/-- The filter of every ownership-scoped read and ownership check:
`.eq('id', req.params.id).eq('user_id', req.user.id)`. -/
def ownershipPred (pid uid : Nat) (r : Project) : Bool :=
  r.id == pid && r.user_id == uid

/-- The filter of the PATCH mutation step,
`update(updates).eq('id', req.params.id)`: id only. -/
def updateMutationPred (pid : Nat) (r : Project) : Bool := r.id == pid

/-- The filter of the DELETE mutation step,
`delete().eq('id', req.params.id)`: id only. -/
def deleteMutationPred (pid : Nat) (r : Project) : Bool := r.id == pid

/-- HTTP-level result of a project route handler. -/
inductive Resp
  | okProj (p : Option Project)
  | okMsg (m : String)
  | err (status : Nat) (msg : String)
deriving DecidableEq

/-- GET /api/projects/:id (`router.get('/:id')` in `src/routes/projects.js`):
the handler rethrows a `.single()` error (`if (error) throw error`), caught as
a 500; only then does it test `if (!project)` for the 404. -/
def getProject (db : List Project) (uid pid : Nat) : Resp :=
  let res := singleOf (db.filter (fun r => ownershipPred pid uid r))
  if res.2 then .err 500 "Failed to fetch project"
  else
    match res.1 with
    | none => .err 404 "Project not found"
    | some p => .okProj (some p)

/-- A JSON request-body field: absent, null, or a value. -/
inductive JsOpt (α : Type)
  | undef
  | null
  | val (a : α)
deriving DecidableEq

/-- Inserting an absent or null field stores null. -/
def jsToOpt {α : Type} : JsOpt α → Option α
  | .val a => some a
  | _ => none

/-- JavaScript falsiness of a string field: absent, null, or empty. -/
def strFalsy : JsOpt String → Bool
  | .val s => s == ""
  | _ => true

/-- JavaScript falsiness of a numeric field: absent, null, or zero. -/
def numFalsy : JsOpt Int → Bool
  | .val n => n == 0
  | _ => true

/-- JavaScript falsiness of an array field: arrays are always truthy. -/
def arrFalsy : JsOpt (List String) → Bool
  | .val _ => false
  | _ => true

/-- Value of a string field, defaulting when not a value. -/
def jsStr : JsOpt String → String
  | .val s => s
  | _ => ""

/-- Value of a numeric field, defaulting when not a value. -/
def jsInt : JsOpt Int → Int
  | .val n => n
  | _ => 0

/-- Value of an array field, defaulting when not a value. -/
def jsArr : JsOpt (List String) → List String
  | .val l => l
  | _ => []

/-- Body of POST /api/projects as destructured by the handler. -/
structure CreateBody where
  name : JsOpt String
  description : JsOpt String
  logo_url : JsOpt String
  team_size : JsOpt Int
  due_date : JsOpt String
  tags : JsOpt (List String)
  priority : JsOpt String
deriving DecidableEq

/-- The row built by the insert in `router.post('/')`:
`team_size: team_size || 1`, `tags: tags || []`,
`priority: priority || 'medium'`; `id` and `created_at` are server-generated
and passed in as parameters here. -/
def mkInsertRow (uid : Nat) (b : CreateBody) (newId newTs : Nat) : Project :=
  { id := newId,
    user_id := uid,
    created_at := newTs,
    name := jsStr b.name,
    description := jsToOpt b.description,
    logo_url := jsToOpt b.logo_url,
    team_size := if numFalsy b.team_size then 1 else jsInt b.team_size,
    due_date := jsToOpt b.due_date,
    status := none,
    progress := 0,
    tags := if arrFalsy b.tags then [] else jsArr b.tags,
    priority := if strFalsy b.priority then "medium" else jsStr b.priority }

/-- POST /api/projects (`router.post('/')`): `if (!name)` rejects 400 before
any insert; otherwise the row is inserted and returned. -/
def createProject (db : List Project) (uid : Nat) (b : CreateBody)
    (newId newTs : Nat) : Resp × List Project :=
  if strFalsy b.name then (.err 400 "Project name is required", db)
  else
    let row := mkInsertRow uid b newId newTs
    (.okProj (some row), db ++ [row])

/-- Body of PATCH /api/projects/:id. The handler destructures only the nine
named fields; `user_id`, `id` and `created_at` model extraneous keys a caller
may also send. An absent field is `none`. -/
structure PatchBody where
  name : Option String
  description : Option String
  logo_url : Option String
  progress : Option Int
  team_size : Option Int
  due_date : Option String
  status : Option String
  tags : Option (List String)
  priority : Option String
  user_id : Option Nat
  id : Option Nat
  created_at : Option Nat
deriving DecidableEq

/-- The `updates` object of the PATCH handler, one
`if (x !== undefined) updates.x = x` per destructured field. -/
structure Updates where
  name : Option String
  description : Option String
  logo_url : Option String
  progress : Option Int
  team_size : Option Int
  due_date : Option String
  status : Option String
  tags : Option (List String)
  priority : Option String
deriving DecidableEq

/-- Builds `updates` from the body; the extraneous `user_id`, `id` and
`created_at` keys are never read. -/
def buildUpdates (b : PatchBody) : Updates :=
  { name := b.name,
    description := b.description,
    logo_url := b.logo_url,
    progress := b.progress,
    team_size := b.team_size,
    due_date := b.due_date,
    status := b.status,
    tags := b.tags,
    priority := b.priority }

/-- Sparse-patch application of `updates` to a stored row: a field present in
`updates` replaces the column, an absent field leaves it untouched. -/
def applyUpdates (u : Updates) (p : Project) : Project :=
  { p with
    name := u.name.getD p.name,
    description := match u.description with | some d => some d | none => p.description,
    logo_url := match u.logo_url with | some v => some v | none => p.logo_url,
    progress := u.progress.getD p.progress,
    team_size := u.team_size.getD p.team_size,
    due_date := match u.due_date with | some v => some v | none => p.due_date,
    status := match u.status with | some v => some v | none => p.status,
    tags := u.tags.getD p.tags,
    priority := u.priority.getD p.priority }

/-- PATCH /api/projects/:id (`router.patch('/:id')`): the ownership check
destructures only `data` and answers 404 when it is null; the mutation then
filters by id alone and `.select().single()` returns the updated row. -/
def updateProject (db : List Project) (uid pid : Nat) (b : PatchBody) :
    Resp × List Project :=
  let check := singleOf (db.filter (fun r => ownershipPred pid uid r))
  match check.1 with
  | none => (.err 404 "Project not found or access denied", db)
  | some _ =>
    let u := buildUpdates b
    let db2 := db.map (fun r => if updateMutationPred pid r then applyUpdates u r else r)
    let returned := singleOf ((db.filter (fun r => updateMutationPred pid r)).map (applyUpdates u))
    if returned.2 then (.err 500 "Failed to update project", db2)
    else (.okProj returned.1, db2)

/-- DELETE /api/projects/:id (`router.delete('/:id')`): same ownership check,
then `delete().eq('id', ...)` filtered by id alone; the delete call is
modelled error-free. -/
def deleteProject (db : List Project) (uid pid : Nat) : Resp × List Project :=
  let check := singleOf (db.filter (fun r => ownershipPred pid uid r))
  match check.1 with
  | none => (.err 404 "Project not found or access denied", db)
  | some _ =>
    let db2 := db.filter (fun r => !(deleteMutationPred pid r))
    (.okMsg "Project deleted successfully", db2)

/-- A conversation turn `{role, content}` supplied to the chat endpoint. -/
structure Turn where
  role : String
  content : String
deriving DecidableEq

/-- Rendering of one turn, from the template string of the chat handler. -/
def renderTurn (t : Turn) : String := t.role ++ ": " ++ t.content

/-- `conversationHistory.slice(-5)`: the last five turns (or all of them when
fewer). -/
def sliceLast5 (l : List Turn) : List Turn := l.drop (l.length - 5)

/-- The conversation block of the chat prompt:
`conversationHistory?.slice(-5).map(...).join('\n') || ''`. -/
def chatContext (h : Option (List Turn)) : String :=
  match h with
  | none => ""
  | some l => String.intercalate "\n" ((sliceLast5 l).map renderTurn)

/-- Project snapshot fields the chat prompt reads. -/
structure ProjSnapshot where
  name : String
  progress : JsOpt Int
deriving DecidableEq

/-- The project block of the chat prompt, empty when no project is given. -/
def projChatContext (p : Option ProjSnapshot) : String :=
  match p with
  | none => ""
  | some pr =>
    "\nCONTEXT: Project " ++ pr.name ++ " is " ++
      toString (if numFalsy pr.progress then 0 else jsInt pr.progress) ++ "% done."

/-- The assembled chat prompt of `app.post('/api/chat')`; the constant system
prompt is passed as a parameter. -/
def chatPrompt (sys : String) (h : Option (List Turn)) (p : Option ProjSnapshot)
    (message : String) : String :=
  sys ++ "\n" ++ chatContext h ++ projChatContext p ++ "\nUSER: " ++ message ++ "\nNEXUS AI:"

/-- Identity verifier that accepts every token as user 5. -/
def gUserOkEx : String → VerifyResult := fun _ => { user := some { id := 5 }, error := false }

/-- Profile resolver that finds an admin profile for every id. -/
def gpOkEx : Nat → ProfileLookup := fun _ => .ok { id := 5, is_admin := some true }

/-- Profile resolver whose lookup errors (store failure or zero rows). -/
def gpFailEx : Nat → ProfileLookup := fun _ => .fail

def uEx : User := { id := 5 }

def profEx : Profile := { id := 5, is_admin := some true }

/-- A fully populated project row owned by user 7. -/
def pEx : Project :=
  { id := 1, user_id := 7, created_at := 11, name := "Launch",
    description := some "d", logo_url := none, team_size := 3, due_date := none,
    status := some "active", progress := 10, tags := ["a", "b"], priority := "high" }

/-- The same row owned by user 1. -/
def pOther : Project := { pEx with user_id := 1 }

def dbC1 : List Project := [pOther]

/-- A patch body with every field absent. -/
def pbEmpty : PatchBody :=
  { name := none, description := none, logo_url := none, progress := none,
    team_size := none, due_date := none, status := none, tags := none,
    priority := none, user_id := none, id := none, created_at := none }

/-- A patch body supplying only `{progress: 50}`. -/
def pbProg50 : PatchBody := { pbEmpty with progress := some 50 }

/-- A patch body that also tries to overwrite `user_id`, `id` and
`created_at`. -/
def pbSneaky : PatchBody :=
  { pbEmpty with progress := some 50, user_id := some 999, id := some 42, created_at := some 1 }

/-- A row with the queried id but a foreign owner. -/
def crossRow : Project := { pEx with id := 1, user_id := 99 }

/-- A create body supplying only a name. -/
def cbLaunch : CreateBody :=
  { name := .val "Launch", description := .undef, logo_url := .undef,
    team_size := .undef, due_date := .undef, tags := .undef, priority := .undef }

/-- A create body with falsy but present values for the defaulted fields. -/
def cbFalsy : CreateBody :=
  { cbLaunch with team_size := .val 0, tags := .null, priority := .val "" }

/-- A create body with an empty name. -/
def cbNoName : CreateBody := { cbLaunch with name := .val "" }

/-- An eight-turn conversation history with pairwise distinct turns. -/
def turnsEx : List Turn :=
  [⟨"user", "t1"⟩, ⟨"assistant", "t2"⟩, ⟨"user", "t3"⟩, ⟨"assistant", "t4"⟩,
   ⟨"user", "t5"⟩, ⟨"assistant", "t6"⟩, ⟨"user", "t7"⟩, ⟨"assistant", "t8"⟩]

theorem filter_pred_single {pred : Project → Bool} :
    ∀ (l : List Project), (l.map (fun r => r.id)).Nodup →
    ∀ p : Project, p ∈ l → pred p = true →
    (∀ q : Project, pred q = true → q.id = p.id) →
    l.filter pred = [p] := by
  intro l
  induction l with
  | nil => intro _ p hp _ _; exact absurd hp (List.not_mem_nil p)
  | cons a t ih =>
    intro hnd p hp hpp himp
    rw [List.map_cons, List.nodup_cons] at hnd
    obtain ⟨ha, ht⟩ := hnd
    rw [List.filter_cons]
    by_cases hpa : pred a = true
    · have haid : a.id = p.id := himp a hpa
      have hpeq : p = a := by
        rcases List.mem_cons.1 hp with h | h
        · exact h
        · exact absurd (haid ▸ List.mem_map_of_mem (fun r => r.id) h) ha
      have htail : t.filter pred = [] := by
        rw [List.filter_eq_nil_iff]
        intro q hq hqp
        have hqa : q.id = a.id := by rw [himp q hqp, hpeq]
        exact ha (hqa ▸ List.mem_map_of_mem (fun r => r.id) hq)
      simp [hpa, htail, hpeq]
    · have hpt : p ∈ t := by
        rcases List.mem_cons.1 hp with h | h
        · exact absurd (h ▸ hpp) hpa
        · exact h
      simp only [hpa]
      simp only [Bool.false_eq_true, if_false]
      exact ih ht p hpt hpp himp

theorem ownership_filter (db : List Project) (pid uid : Nat) (p : Project)
    (hnd : (db.map (fun r => r.id)).Nodup) (hp : p ∈ db)
    (hid : p.id = pid) (hu : p.user_id = uid) :
    db.filter (fun r => ownershipPred pid uid r) = [p] := by
  refine filter_pred_single db hnd p hp ?_ ?_
  · simp [ownershipPred, hid, hu]
  · intro q hq
    simp only [ownershipPred, Bool.and_eq_true, beq_iff_eq] at hq
    omega

theorem idonly_filter (db : List Project) (pid : Nat) (p : Project)
    (hnd : (db.map (fun r => r.id)).Nodup) (hp : p ∈ db) (hid : p.id = pid) :
    db.filter (fun r => updateMutationPred pid r) = [p] := by
  refine filter_pred_single db hnd p hp ?_ ?_
  · simp [updateMutationPred, hid]
  · intro q hq
    simp only [updateMutationPred, beq_iff_eq] at hq
    omega

theorem optionalAuth_total (g : String → VerifyResult) (gp : Nat → ProfileLookup)
    (header : Option String) :
    ∃ c : RequestContext, optionalAuth g gp header = .proceed c := by
  match header with
  | none => exact ⟨anonCtx, rfl⟩
  | some h =>
    by_cases hs : startsWithBearer h = true
    · rcases hgv : g (bearerToken h) with ⟨ou, er⟩
      rcases ou with _ | u <;> rcases er with _ | _ <;>
        · simp only [optionalAuth, hgv, hs, if_true]
          exact ⟨_, rfl⟩
    · simp only [Bool.not_eq_true] at hs
      simp only [optionalAuth, hs, Bool.false_eq_true, if_false]
      exact ⟨anonCtx, rfl⟩

theorem updateProject_owned (db : List Project) (uid pid : Nat) (b : PatchBody)
    (p : Project) (hnd : (db.map (fun r => r.id)).Nodup) (hp : p ∈ db)
    (hid : p.id = pid) (hu : p.user_id = uid) :
    updateProject db uid pid b =
      (Resp.okProj (some (applyUpdates (buildUpdates b) p)),
       db.map (fun r => if updateMutationPred pid r then applyUpdates (buildUpdates b) r else r)) := by
  unfold updateProject
  rw [ownership_filter db pid uid p hnd hp hid hu,
    idonly_filter db pid p hnd hp hid]
  simp [singleOf]

/-- C4: In mandatory auth mode, a missing Authorization header or a
non-bearer scheme is rejected with 401; a token verification error or a
missing identity is rejected with 401; a profile lookup error after a
successful verification is rejected with 500; otherwise the request proceeds
with the context {user, profile, isAdmin = profile.is_admin or false}. -/
theorem verifyAuth_spec (g : String → VerifyResult) (gp : Nat → ProfileLookup) :
    (verifyAuth g gp none = .reject 401 "No authorization token provided") ∧
    (∀ s : String, startsWithBearer s = false →
      verifyAuth g gp (some s) = .reject 401 "No authorization token provided") ∧
    (∀ s : String, startsWithBearer s = true →
      ((g (bearerToken s)).error = true ∨ (g (bearerToken s)).user = none) →
      verifyAuth g gp (some s) = .reject 401 "Invalid or expired token") ∧
    (∀ (s : String) (u : User), startsWithBearer s = true →
      g (bearerToken s) = { user := some u, error := false } → gp u.id = .fail →
      verifyAuth g gp (some s) = .reject 500 "Error fetching user profile") ∧
    (∀ (s : String) (u : User) (p : Profile), startsWithBearer s = true →
      g (bearerToken s) = { user := some u, error := false } → gp u.id = .ok p →
      verifyAuth g gp (some s) =
        .proceed { user := some u, profile := some p, isAdmin := p.is_admin.getD false }) := by
  refine ⟨rfl, ?_, ?_, ?_, ?_⟩
  · intro s hs
    simp only [verifyAuth, hs, Bool.false_eq_true, if_false]
  · intro s hs herr
    rcases hgv : g (bearerToken s) with ⟨ou, er⟩
    rw [hgv] at herr
    rcases ou with _ | u <;> rcases er with _ | _ <;>
      simp_all only [verifyAuth, hgv, if_true]
    all_goals simp_all
  · intro s u hs hgv hgp
    simp only [verifyAuth, hgv, hs, if_true, hgp]
  · intro s u p hs hgv hgp
    simp only [verifyAuth, hgv, hs, if_true, hgp]

/-- Witness for verifyAuth_spec: with a concrete bearer header, a verifier
accepting the token as user 5, and a working resolver, the gate proceeds as
that user; with a failing resolver it rejects 500. -/
theorem verifyAuth_spec_witness :
    verifyAuth gUserOkEx gpOkEx (some "Bearer tok") =
      .proceed { user := some uEx, profile := some profEx,
                 isAdmin := profEx.is_admin.getD false } ∧
    verifyAuth gUserOkEx gpFailEx (some "Bearer tok") =
      .reject 500 "Error fetching user profile" :=
  ⟨(verifyAuth_spec gUserOkEx gpOkEx).2.2.2.2 "Bearer tok" uEx profEx rfl rfl rfl,
   (verifyAuth_spec gUserOkEx gpFailEx).2.2.2.1 "Bearer tok" uEx rfl rfl rfl⟩

/-- C2 counterexample: in optional mode, with a valid bearer token and a
profile resolver that errors, the request proceeds with the verified user
still attached and a null profile — not with the anonymous context
{user: null, profile: null, isAdmin: false} the claim requires. -/
theorem optionalAuth_resolver_error_cex :
    optionalAuth gUserOkEx gpFailEx (some "Bearer tok") =
      .proceed { user := some uEx, profile := none, isAdmin := false } ∧
    optionalAuth gUserOkEx gpFailEx (some "Bearer tok") ≠ .proceed anonCtx := by
  exact ⟨rfl, by decide⟩

/-- C2 amended: every optional-mode failure path before identity verification
(missing header, non-bearer scheme, verification error or missing identity)
degrades to the anonymous context; a profile resolver error after a
successful verification degrades to {user, profile: null, isAdmin: false};
in every case the request proceeds — optional mode never returns an error
response. -/
theorem optionalAuth_spec (g : String → VerifyResult) (gp : Nat → ProfileLookup) :
    (optionalAuth g gp none = .proceed anonCtx) ∧
    (∀ s : String, startsWithBearer s = false →
      optionalAuth g gp (some s) = .proceed anonCtx) ∧
    (∀ s : String, startsWithBearer s = true →
      ((g (bearerToken s)).error = true ∨ (g (bearerToken s)).user = none) →
      optionalAuth g gp (some s) = .proceed anonCtx) ∧
    (∀ (s : String) (u : User), startsWithBearer s = true →
      g (bearerToken s) = { user := some u, error := false } → gp u.id = .fail →
      optionalAuth g gp (some s) =
        .proceed { user := some u, profile := none, isAdmin := false }) ∧
    (∀ header : Option String, ∃ c : RequestContext,
      optionalAuth g gp header = .proceed c) := by
  refine ⟨rfl, ?_, ?_, ?_, optionalAuth_total g gp⟩
  · intro s hs
    simp only [optionalAuth, hs, Bool.false_eq_true, if_false]
  · intro s hs herr
    rcases hgv : g (bearerToken s) with ⟨ou, er⟩
    rw [hgv] at herr
    rcases ou with _ | u <;> rcases er with _ | _ <;>
      simp_all only [optionalAuth, hgv, if_true]
    all_goals simp_all
  · intro s u hs hgv hgp
    simp only [optionalAuth, hgv, hs, if_true, hgp, isAdminOf]

/-- Witness for optionalAuth_spec: with no header the gate proceeds
anonymously, and with a valid token but failing resolver it proceeds with the
verified user and no profile. -/
theorem optionalAuth_spec_witness :
    optionalAuth gUserOkEx gpFailEx none = .proceed anonCtx ∧
    optionalAuth gUserOkEx gpFailEx (some "Bearer tok") =
      .proceed { user := some uEx, profile := none, isAdmin := false } :=
  ⟨(optionalAuth_spec gUserOkEx gpFailEx).1,
   (optionalAuth_spec gUserOkEx gpFailEx).2.2.2.1 "Bearer tok" uEx rfl rfl rfl⟩

/-- C8: The admin gate rejects 401 when the context has no user, rejects 403
with the admin-restricted message when a user is present but isAdmin is
false, and proceeds otherwise. -/
theorem requireAdmin_spec (ctx : RequestContext) :
    (ctx.user = none → requireAdmin ctx = .reject 401 "Authentication required") ∧
    (∀ u : User, ctx.user = some u → ctx.isAdmin = false →
      requireAdmin ctx =
        .reject 403 "Admin access required. This action is restricted to administrators.") ∧
    (∀ u : User, ctx.user = some u → ctx.isAdmin = true →
      requireAdmin ctx = .proceed ctx) := by
  refine ⟨?_, ?_, ?_⟩
  · intro h
    simp only [requireAdmin, h]
  · intro u hu hadm
    simp only [requireAdmin, hu, hadm, Bool.false_eq_true, if_false]
  · intro u hu hadm
    simp only [requireAdmin, hu, hadm, if_true]

/-- Witness for requireAdmin_spec at the three concrete contexts: anonymous,
authenticated non-admin, and admin. -/
theorem requireAdmin_spec_witness :
    requireAdmin anonCtx = .reject 401 "Authentication required" ∧
    requireAdmin { user := some uEx, profile := some profEx, isAdmin := false } =
      .reject 403 "Admin access required. This action is restricted to administrators." ∧
    requireAdmin { user := some uEx, profile := some profEx, isAdmin := true } =
      .proceed { user := some uEx, profile := some profEx, isAdmin := true } :=
  ⟨(requireAdmin_spec anonCtx).1 rfl,
   (requireAdmin_spec _).2.1 uEx rfl rfl,
   (requireAdmin_spec _).2.2 uEx rfl rfl⟩

/-- C1 (evaluation at the failing input): for a store holding project 1 owned
by user 1, a GET by authenticated user 2 answers 500 "Failed to fetch
project" — the zero-row `.single()` read errors and the handler rethrows it,
so its own 404 branch is unreachable — while PATCH and DELETE by user 2
answer 404 as claimed. -/
theorem get_foreign_project_500 :
    getProject dbC1 2 1 = Resp.err 500 "Failed to fetch project" ∧
    (updateProject dbC1 2 1 pbEmpty).1 = Resp.err 404 "Project not found or access denied" ∧
    (deleteProject dbC1 2 1).1 = Resp.err 404 "Project not found or access denied" := by
  exact ⟨rfl, rfl, rfl⟩

/-- C3 counterexample: the mutation-step filters of PATCH and DELETE accept a
row carrying the requested id but a foreign owner, which the ownership filter
rejects — so the mutation steps do not carry the owner_id filter. -/
theorem mutation_filter_cex :
    updateMutationPred 1 crossRow = true ∧
    deleteMutationPred 1 crossRow = true ∧
    ownershipPred 1 7 crossRow = false ∧
    crossRow.user_id ≠ 7 := by
  decide

/-- C3 amended: reads and the ownership checks filter by both id and
owner_id, but the mutation steps of update and delete filter by id alone; a
request whose user owns no matching row is stopped by the preceding
ownership check with 404 and the store is unchanged, even though the
mutation filter itself accepts rows of any owner with the requested id. -/
theorem mutation_scoped_by_check (db : List Project) (uid pid : Nat) (b : PatchBody)
    (hno : ∀ r ∈ db, ownershipPred pid uid r = false) :
    updateProject db uid pid b = (Resp.err 404 "Project not found or access denied", db) ∧
    deleteProject db uid pid = (Resp.err 404 "Project not found or access denied", db) ∧
    (∃ r : Project, updateMutationPred pid r = true ∧ deleteMutationPred pid r = true ∧
      ownershipPred pid uid r = false) := by
  have hfil : db.filter (fun r => ownershipPred pid uid r) = [] := by
    rw [List.filter_eq_nil_iff]
    intro a ha
    simp [hno a ha]
  refine ⟨?_, ?_, ?_⟩
  · unfold updateProject
    rw [hfil]
    rfl
  · unfold deleteProject
    rw [hfil]
    rfl
  · refine ⟨{ pEx with id := pid, user_id := uid + 1 }, ?_, ?_, ?_⟩
    · simp [updateMutationPred]
    · simp [deleteMutationPred]
    · have hne : (uid + 1 == uid) = false := by simp
      simp [ownershipPred, hne]

/-- Witness for mutation_scoped_by_check: user 2 owns nothing in a store
holding only a project of user 7, so PATCH and DELETE answer 404 and leave
the store unchanged. -/
theorem mutation_scoped_by_check_witness :
    updateProject [pEx] 2 1 pbEmpty = (Resp.err 404 "Project not found or access denied", [pEx]) ∧
    deleteProject [pEx] 2 1 = (Resp.err 404 "Project not found or access denied", [pEx]) := by
  have h := mutation_scoped_by_check [pEx] 2 1 pbEmpty (by decide)
  exact ⟨h.1, h.2.1⟩

/-- C5: a PATCH supplying only {progress: 50} on an owned project returns the
stored row with progress 50 and every other field unchanged, and rewrites
the store the same way — a sparse patch, not a full replace. -/
theorem patch_progress_sparse (db : List Project) (uid pid : Nat) (b : PatchBody)
    (p : Project) (hnd : (db.map (fun r => r.id)).Nodup) (hp : p ∈ db)
    (hid : p.id = pid) (hu : p.user_id = uid)
    (hprog : b.progress = some 50)
    (hname : b.name = none) (hdesc : b.description = none)
    (hlogo : b.logo_url = none) (hteam : b.team_size = none)
    (hdue : b.due_date = none) (hstat : b.status = none)
    (htags : b.tags = none) (hprio : b.priority = none) :
    (updateProject db uid pid b).1 = Resp.okProj (some { p with progress := 50 }) ∧
    (updateProject db uid pid b).2 =
      db.map (fun r => if updateMutationPred pid r then { r with progress := 50 } else r) := by
  have happ : ∀ r : Project, applyUpdates (buildUpdates b) r = { r with progress := 50 } := by
    intro r
    simp [applyUpdates, buildUpdates, hprog, hname, hdesc, hlogo, hteam, hdue, hstat, htags, hprio]
  rw [updateProject_owned db uid pid b p hnd hp hid hu]
  refine ⟨?_, ?_⟩
  · rw [happ p]
  · simp only [happ]

/-- Witness for patch_progress_sparse on a concrete fully populated row. -/
theorem patch_progress_sparse_witness :
    (updateProject [pEx] 7 1 pbProg50).1 = Resp.okProj (some { pEx with progress := 50 }) ∧
    (updateProject [pEx] 7 1 pbProg50).2 =
      [pEx].map (fun r => if updateMutationPred 1 r then { r with progress := 50 } else r) :=
  patch_progress_sparse [pEx] 7 1 pbProg50 pEx (by decide) (by decide)
    rfl rfl rfl rfl rfl rfl rfl rfl rfl rfl rfl

/-- C9: a PATCH can modify only the nine destructured fields; any other field
present in the body — user_id, id and created_at in particular — is ignored,
so the returned row keeps the original owner, id and creation time and a
project's owner can never be changed through update. -/
theorem patch_ignores_foreign_fields (db : List Project) (uid pid : Nat)
    (b : PatchBody) (p : Project) (hnd : (db.map (fun r => r.id)).Nodup)
    (hp : p ∈ db) (hid : p.id = pid) (hu : p.user_id = uid) :
    (updateProject db uid pid b).1 =
      Resp.okProj (some (applyUpdates (buildUpdates b) p)) ∧
    (applyUpdates (buildUpdates b) p).user_id = p.user_id ∧
    (applyUpdates (buildUpdates b) p).id = p.id ∧
    (applyUpdates (buildUpdates b) p).created_at = p.created_at := by
  rw [updateProject_owned db uid pid b p hnd hp hid hu]
  exact ⟨rfl, rfl, rfl, rfl⟩

/-- Witness for patch_ignores_foreign_fields: a body that also sends
user_id 999, id 42 and created_at 1 leaves all three untouched. -/
theorem patch_ignores_foreign_fields_witness :
    (updateProject [pEx] 7 1 pbSneaky).1 =
      Resp.okProj (some (applyUpdates (buildUpdates pbSneaky) pEx)) ∧
    (applyUpdates (buildUpdates pbSneaky) pEx).user_id = pEx.user_id ∧
    (applyUpdates (buildUpdates pbSneaky) pEx).id = pEx.id ∧
    (applyUpdates (buildUpdates pbSneaky) pEx).created_at = pEx.created_at :=
  patch_ignores_foreign_fields [pEx] 7 1 pbSneaky pEx (by decide) (by decide) rfl rfl

/-- C6: create rejects 400 without inserting when the name is absent or
empty; otherwise, when team_size, tags and priority are not supplied, the
persisted row defaults them to 1, [] and "medium" and is returned. -/
theorem create_spec (db : List Project) (uid : Nat) (b : CreateBody)
    (newId newTs : Nat) :
    ((b.name = .undef ∨ b.name = .val "") →
      createProject db uid b newId newTs = (.err 400 "Project name is required", db)) ∧
    (strFalsy b.name = false → b.team_size = .undef → b.tags = .undef →
      b.priority = .undef →
      createProject db uid b newId newTs =
        (.okProj (some (mkInsertRow uid b newId newTs)), db ++ [mkInsertRow uid b newId newTs]) ∧
      (mkInsertRow uid b newId newTs).team_size = 1 ∧
      (mkInsertRow uid b newId newTs).tags = [] ∧
      (mkInsertRow uid b newId newTs).priority = "medium") := by
  constructor
  · intro h
    have hf : strFalsy b.name = true := by
      rcases h with h | h <;> simp [strFalsy, h]
    simp [createProject, hf]
  · intro hn ht hg hp
    refine ⟨by simp [createProject, hn], ?_, ?_, ?_⟩
    · simp [mkInsertRow, numFalsy, ht]
    · simp [mkInsertRow, arrFalsy, hg]
    · simp [mkInsertRow, strFalsy, hp]

/-- Witness for create_spec: an empty name is rejected without insertion; a
name-only body is persisted with the three defaults. -/
theorem create_spec_witness :
    createProject [] 7 cbNoName 9 13 = (Resp.err 400 "Project name is required", []) ∧
    createProject [] 7 cbLaunch 9 13 =
      (Resp.okProj (some (mkInsertRow 7 cbLaunch 9 13)), [] ++ [mkInsertRow 7 cbLaunch 9 13]) ∧
    (mkInsertRow 7 cbLaunch 9 13).team_size = 1 ∧
    (mkInsertRow 7 cbLaunch 9 13).tags = [] ∧
    (mkInsertRow 7 cbLaunch 9 13).priority = "medium" := by
  have h1 := (create_spec [] 7 cbNoName 9 13).1 (Or.inr rfl)
  have h2 := (create_spec [] 7 cbLaunch 9 13).2 rfl rfl rfl rfl
  exact ⟨h1, h2.1, h2.2.1, h2.2.2.1, h2.2.2.2⟩

/-- C10: the create defaults apply to any falsy supplied value, not only to
absent fields: team_size 0 persists as 1, null tags as [], and empty-string
priority as "medium". -/
theorem create_falsy_defaults (db : List Project) (uid : Nat) (b : CreateBody)
    (newId newTs : Nat) (hn : strFalsy b.name = false) :
    (b.team_size = .val 0 → (mkInsertRow uid b newId newTs).team_size = 1) ∧
    (b.tags = .null → (mkInsertRow uid b newId newTs).tags = []) ∧
    (b.priority = .val "" → (mkInsertRow uid b newId newTs).priority = "medium") ∧
    createProject db uid b newId newTs =
      (.okProj (some (mkInsertRow uid b newId newTs)), db ++ [mkInsertRow uid b newId newTs]) := by
  refine ⟨?_, ?_, ?_, by simp [createProject, hn]⟩
  · intro h
    simp [mkInsertRow, numFalsy, h]
  · intro h
    simp [mkInsertRow, arrFalsy, h]
  · intro h
    simp [mkInsertRow, strFalsy, h]

/-- Witness for create_falsy_defaults at a body carrying team_size 0, null
tags and empty priority. -/
theorem create_falsy_defaults_witness :
    (mkInsertRow 7 cbFalsy 9 13).team_size = 1 ∧
    (mkInsertRow 7 cbFalsy 9 13).tags = [] ∧
    (mkInsertRow 7 cbFalsy 9 13).priority = "medium" ∧
    createProject [] 7 cbFalsy 9 13 =
      (Resp.okProj (some (mkInsertRow 7 cbFalsy 9 13)), [] ++ [mkInsertRow 7 cbFalsy 9 13]) := by
  have h := create_falsy_defaults [] 7 cbFalsy 9 13 rfl
  exact ⟨h.1 rfl, h.2.1 rfl, h.2.2.1 rfl, h.2.2.2⟩

/-- C7: for a history of more than 5 pairwise distinct turns, the chat
context renders exactly the last 5 turns, newline-joined in their original
order (the window is the suffix of the history), none of the earlier turns
appears in the window, and the assembled prompt embeds that rendering
between the system prompt and the user message. -/
theorem chat_window_spec (l : List Turn) (hlen : 5 < l.length) (hnd : l.Nodup) :
    chatContext (some l) = String.intercalate "\n" ((sliceLast5 l).map renderTurn) ∧
    (sliceLast5 l).length = 5 ∧
    l.take (l.length - 5) ++ sliceLast5 l = l ∧
    (∀ t ∈ l.take (l.length - 5), t ∉ sliceLast5 l) ∧
    (∀ sys msg : String, ∀ pr : Option ProjSnapshot,
      chatPrompt sys (some l) pr msg =
        sys ++ "\n" ++ String.intercalate "\n" ((sliceLast5 l).map renderTurn) ++
          projChatContext pr ++ "\nUSER: " ++ msg ++ "\nNEXUS AI:") := by
  refine ⟨rfl, ?_, ?_, ?_, fun sys msg pr => rfl⟩
  · simp only [sliceLast5, List.length_drop]
    omega
  · exact List.take_append_drop _ l
  · intro t hmem hc
    have hdisj := List.disjoint_take_drop hnd (le_refl (l.length - 5))
    exact hdisj hmem hc

/-- Witness for chat_window_spec at a concrete eight-turn history: exactly
the last five turns form the window and the first turn is not among them. -/
theorem chat_window_spec_witness :
    (sliceLast5 turnsEx).length = 5 ∧
    turnsEx.take (turnsEx.length - 5) ++ sliceLast5 turnsEx = turnsEx ∧
    (⟨"user", "t1"⟩ : Turn) ∉ sliceLast5 turnsEx := by
  have h := chat_window_spec turnsEx (by decide) (by decide)
  exact ⟨h.2.1, h.2.2.1, h.2.2.2.1 ⟨"user", "t1"⟩ (by decide)⟩
